import Mathlib

/-!
# Verification of the hostel-backend leave / fee / entry-exit core

Shallow embedding of the state-machine and reconciliation logic of the
hostel-management backend:

* leave-approval workflow (`src/src/controllers/leave.controller.js` and the
  `Leave` mongoose schema),
* fee settlement and fee CRUD (`src/src/controllers/payment.controller.js`,
  fee controller, `Fee.model.js`, `Payment.model.js`),
* entry/exit toggle (entry-exit controller).

The document database is embedded as a Lean `List` of records; mongoose
`findOneAndUpdate` (a conditional single-document update) is embedded as
`updateFirst`, which rewrites the first record matching the filter predicate
and reports whether a match occurred.  Timestamps are `Nat` (epoch
milliseconds), `Date` comparisons are integer comparisons.  JavaScript
falsiness of strings (`x || y` picking `y` when `x` is `undefined` or `""`)
is embedded by `jsOrString`.  HTTP responses are embedded as outcome
inductives; the numeric codes the handlers use are noted next to each
constructor.
-/

namespace Hostel

/-- Conditional first-match update, the embedding of mongoose
`findOneAndUpdate(filter, update, { new: true })` over a collection:
rewrites the first element satisfying `p` with `f` and returns it
(post-update, i.e. `new: true`), or returns `none` leaving the list as is. -/
def updateFirst {α : Type} (p : α → Prop) [DecidablePred p] (f : α → α) :
    List α → Option α × List α
  | [] => (none, [])
  | x :: xs =>
    if p x then (some (f x), f x :: xs)
    else
      let r := updateFirst p f xs
      (r.1, x :: r.2)

/-- JavaScript `x || d` for an optional string field: `undefined` and the
empty string are falsy, any other string is kept. -/
def jsOrString : Option String → String → String
  | some s, d => if s = "" then d else s
  | none, d => d

/-- JavaScript `String.prototype.trim` / mongoose `trim: true`: strip
leading and trailing whitespace (embedded structurally over the character
list). -/
def jsTrim (s : String) : String :=
  ⟨((s.data.dropWhile Char.isWhitespace).reverse.dropWhile
      Char.isWhitespace).reverse⟩

/-! ## Leave workflow (`Leave.model.js`, `leave.controller.js`) -/

/-- The `status` enum of `leaveSchema`. -/
inductive LeaveStatus
  | Pending
  | PendingParent
  | ApprovedByParent
  | RejectedByParent
  | Approved
  | Rejected
  | Cancelled
deriving DecidableEq, Repr

/-- One element of the append-only `statusHistory` array of `leaveSchema`. -/
structure HistoryEntry where
  status : LeaveStatus
  updatedBy : Option Nat
  role : String
  reason : Option String
  timestamp : Nat
deriving DecidableEq, Repr

/-- A `Leave` document (fields of `leaveSchema`; ids and user references are
embedded as `Nat`). -/
structure LeaveRequest where
  id : Nat
  studentId : Nat
  reason : String
  type : String
  status : LeaveStatus
  outDate : Int
  inDate : Int
  outTime : Option String
  inTime : Option String
  approvedBy : Option Nat
  approvedAt : Option Nat
  rejectionReason : Option String
  parentApprovalStatus : Option String
  parentApprovedBy : Option Nat
  parentApprovedAt : Option Nat
  parentRejectionReason : Option String
  statusHistory : List HistoryEntry
deriving DecidableEq, Repr

/-- Outcome of a leave handler (the HTTP code each constructor embeds is
noted; `serverError` is the catch-all 500 raised e.g. by mongoose schema
validation inside `create`/`save`). -/
inductive LeaveOutcome
  | ok (leave : LeaveRequest)
  | badRequest
  | forbidden
  | notFound
  | conflict
  | serverError
deriving DecidableEq, Repr

/-- The `type` enum of `leaveSchema`. -/
def leaveTypeValid (t : String) : Prop :=
  t = "Home Visit" ∨ t = "Local Coaching/Classes" ∨ t = "Medical Checkup" ∨
  t = "Local Market/Personal" ∨ t = "Emergency Leave" ∨ t = "Other"

instance (t : String) : Decidable (leaveTypeValid t) := by
  unfold leaveTypeValid; infer_instance

/-- `Leave.findById(id)` over the embedded collection. -/
def findLeave (db : List LeaveRequest) (id : Nat) : Option LeaveRequest :=
  db.find? (fun r => decide (r.id = id))

/-- `createLeaveRequest` (leave.controller.js).  Caller identity is already
resolved to the student's document id (`studentId`); `now` is the request
time and `newId` the generated document id.  The controller rejects missing
`reason`/`type` (JS falsiness: the empty string) with 400 and rejects
`outDate >= inDate` with 400; `Leave.create` then runs mongoose validation
— the `required` validator on the trimmed `reason` (the controller passes
`reason.trim()`, and `required` fails on an empty string, so a
whitespace-only reason is a 500) and the `type` enum — and the
`pre('save')` hook (`inDate < outDate` rejected). -/
def createLeaveRequest (studentId : Nat) (reason type : String)
    (outDate inDate : Int) (outTime inTime : Option String)
    (now newId : Nat) (db : List LeaveRequest) :
    LeaveOutcome × List LeaveRequest :=
  if reason = "" ∨ type = "" then (.badRequest, db)
  else if outDate ≥ inDate then (.badRequest, db)
  else if jsTrim reason = "" then (.serverError, db)
  else if ¬ leaveTypeValid type then (.serverError, db)
  else
    let leave : LeaveRequest := {
      id := newId
      studentId := studentId
      reason := jsTrim reason
      type := type
      status := .PendingParent
      outDate := outDate
      inDate := inDate
      outTime := outTime
      inTime := inTime
      approvedBy := none
      approvedAt := none
      rejectionReason := none
      parentApprovalStatus := some "Pending"
      parentApprovedBy := none
      parentApprovedAt := none
      parentRejectionReason := none
      statusHistory := [{ status := .PendingParent, updatedBy := none,
                          role := "student", reason := none, timestamp := now }] }
    if leave.inDate < leave.outDate then (.serverError, db)
    else (.ok leave, db ++ [leave])

/-- A parent or warden decision taken from the request body; the controllers
first reject any body `status` outside `{Approved, Rejected}` with 400, so
the embedded operations receive the already-validated decision. -/
inductive Decision
  | approve
  | reject
deriving DecidableEq, Repr

/-- The `statusHistory` entry pushed by `parentApproveOrReject`. -/
def parentHistoryEntry (parentUserId : Nat) (decision : Decision)
    (rejectionReason : Option String) (now : Nat) : HistoryEntry := {
  status := match decision with
    | .approve => .ApprovedByParent
    | .reject => .RejectedByParent
  updatedBy := some parentUserId
  role := "parent"
  reason := match decision with
    | .approve => none
    | .reject => rejectionReason
  timestamp := now }

/-- The `$set`/`$push` update applied by `parentApproveOrReject` to the
matched request. -/
def applyParentDecision (parentUserId : Nat) (decision : Decision)
    (rejectionReason : Option String) (now : Nat)
    (l : LeaveRequest) : LeaveRequest :=
  { l with
    status := match decision with
      | .approve => .ApprovedByParent
      | .reject => .RejectedByParent
    parentApprovalStatus := some (match decision with
      | .approve => "Approved"
      | .reject => "Rejected")
    parentApprovedBy := some parentUserId
    parentApprovedAt := some now
    parentRejectionReason := match decision with
      | .approve => none
      | .reject => rejectionReason
    statusHistory := l.statusHistory ++
      [parentHistoryEntry parentUserId decision rejectionReason now] }

/-- `parentApproveOrReject` (leave.controller.js).  The parent identity is
already resolved to its linked student (`parentStudentId`) and user id.
The conditional update matches `{_id: id, studentId: parent.studentId,
status: 'PendingParent'}`; on a miss the handler re-reads by id and triages
404 (absent) / 403 (other student's request) / 409 (already processed).
Mongoose strips `undefined` from `$set`, so the `parentRejectionReason`
field is embedded as the option value actually stored. -/
def parentApproveOrReject (parentStudentId parentUserId : Nat) (id : Nat)
    (decision : Decision) (rejectionReason : Option String) (now : Nat)
    (db : List LeaveRequest) : LeaveOutcome × List LeaveRequest :=
  let r := updateFirst
    (fun l => l.id = id ∧ l.studentId = parentStudentId ∧
              l.status = LeaveStatus.PendingParent)
    (applyParentDecision parentUserId decision rejectionReason now)
    db
  match r.1 with
  | some updated => (.ok updated, r.2)
  | none =>
    match findLeave db id with
    | none => (.notFound, db)
    | some existing =>
      if existing.studentId ≠ parentStudentId then (.forbidden, db)
      else (.conflict, db)

/-- The `statusHistory` entry pushed by `updateLeaveStatus`. -/
def wardenHistoryEntry (wardenUserId : Nat) (decision : Decision)
    (rejectionReason : Option String) (now : Nat) : HistoryEntry := {
  status := match decision with
    | .approve => .Approved
    | .reject => .Rejected
  updatedBy := some wardenUserId
  role := "warden"
  reason := match decision with
    | .approve => none
    | .reject => rejectionReason
  timestamp := now }

/-- The `$set`/`$push` update applied by `updateLeaveStatus` to the matched
request. -/
def applyWardenDecision (wardenUserId : Nat) (decision : Decision)
    (rejectionReason : Option String) (now : Nat)
    (l : LeaveRequest) : LeaveRequest :=
  { l with
    status := match decision with
      | .approve => .Approved
      | .reject => .Rejected
    approvedBy := some wardenUserId
    approvedAt := match decision with
      | .approve => some now
      | .reject => none
    rejectionReason := match decision with
      | .approve => none
      | .reject => rejectionReason
    statusHistory := l.statusHistory ++
      [wardenHistoryEntry wardenUserId decision rejectionReason now] }

/-- `updateLeaveStatus` (leave.controller.js), the warden decision.  The
conditional update matches `{_id: id, status: 'ApprovedByParent'}`; on a
miss the handler re-reads by id and triages 404 (absent) / 409 (already
processed).  `approvedAt`/`rejectionReason` are set to `undefined` on the
opposite decision, which mongoose strips from `$set`; on any request still
in `ApprovedByParent` those fields are unset, so the embedding stores the
option value directly. -/
def updateLeaveStatus (wardenUserId id : Nat) (decision : Decision)
    (rejectionReason : Option String) (now : Nat)
    (db : List LeaveRequest) : LeaveOutcome × List LeaveRequest :=
  let r := updateFirst
    (fun l => l.id = id ∧ l.status = LeaveStatus.ApprovedByParent)
    (applyWardenDecision wardenUserId decision rejectionReason now)
    db
  match r.1 with
  | some updated => (.ok updated, r.2)
  | none =>
    match findLeave db id with
    | none => (.notFound, db)
    | some _ => (.conflict, db)

/-- `cancelMyLeaveRequest` (leave.controller.js).  Reads the request by id,
checks ownership (403), checks `status ∈ {Pending, PendingParent}` (400),
then assigns `status = 'Cancelled'` and saves; the `pre('save')` hook
rejects `inDate < outDate` (500 via the catch block).  Note: no
`statusHistory` entry is appended by this handler. -/
def cancelMyLeaveRequest (studentId id : Nat)
    (db : List LeaveRequest) : LeaveOutcome × List LeaveRequest :=
  match findLeave db id with
  | none => (.notFound, db)
  | some leave =>
    if leave.studentId ≠ studentId then (.forbidden, db)
    else if ¬ (leave.status = .Pending ∨ leave.status = .PendingParent) then
      (.badRequest, db)
    else if leave.inDate < leave.outDate then (.serverError, db)
    else
      let r := updateFirst (fun l => l.id = id)
        (fun l => { l with status := LeaveStatus.Cancelled }) db
      match r.1 with
      | some updated => (.ok updated, r.2)
      | none => (.notFound, db)

/-! ## Fees and settlement (`Fee.model.js`, `Payment.model.js`,
`payment.controller.js`, fee controller) -/

/-- The `status` enum of `feeSchema`. -/
inductive FeeStatus
  | Pending
  | Paid
deriving DecidableEq, Repr

/-- The `paidBy` enum of `feeSchema` / `payerType` of `paymentSchema`. -/
inductive PayerRole
  | student
  | parent
  | warden
deriving DecidableEq, Repr

/-- A `Fee` document (fields of `feeSchema`; `createdAt` is the mongoose
timestamp used for ordering). -/
structure Fee where
  id : Nat
  studentId : Nat
  amount : Int
  term : String
  status : FeeStatus
  receiptNumber : Option String
  paidAt : Option Nat
  paidBy : Option PayerRole
  paidByUserId : Option Nat
  createdAt : Nat
deriving DecidableEq, Repr

/-- A `Payment` document (`paymentSchema`), written once per successful bulk
settlement. -/
structure Payment where
  studentId : Nat
  payerType : PayerRole
  payerUserId : Nat
  amount : Int
  method : String
  status : String
  transactionId : String
deriving DecidableEq, Repr

/-- Outcome of `payMyFees`: `ok` carries the response `message`, `data`
(fee list) and optional `receiptNumber`; `validationError` is the 400 for a
non-positive amount, `amountMismatch` the 400 mismatch response. -/
inductive PayOutcome
  | ok (message : String) (data : List Fee) (receiptNumber : Option String)
  | validationError
  | amountMismatch
deriving DecidableEq, Repr

/-- Insert into a list kept in descending `createdAt` order. -/
def insertFeeDesc (f : Fee) : List Fee → List Fee
  | [] => [f]
  | g :: gs =>
    if g.createdAt ≤ f.createdAt then f :: g :: gs
    else g :: insertFeeDesc f gs

/-- `sort({createdAt: -1})` on a fee query result. -/
def sortFeesByCreatedAtDesc : List Fee → List Fee
  | [] => []
  | f :: fs => insertFeeDesc f (sortFeesByCreatedAtDesc fs)

/-- Insert into a list kept in ascending `createdAt` order. -/
def insertFeeAsc (f : Fee) : List Fee → List Fee
  | [] => [f]
  | g :: gs =>
    if f.createdAt ≤ g.createdAt then f :: g :: gs
    else g :: insertFeeAsc f gs

/-- `sort({createdAt: 1})` on a fee query result. -/
def sortFeesByCreatedAtAsc : List Fee → List Fee
  | [] => []
  | f :: fs => insertFeeAsc f (sortFeesByCreatedAtAsc fs)

/-- `Fee.find({studentId, status: 'Pending'}).sort({createdAt: 1})`. -/
def pendingFeesOf (db : List Fee) (sid : Nat) : List Fee :=
  sortFeesByCreatedAtAsc
    (db.filter (fun f => decide (f.studentId = sid ∧ f.status = FeeStatus.Pending)))

/-- The per-fee mutation of the settlement loop in `payMyFees`: for each
pending fee of the subject, `status = 'Paid'`, `paidAt = paidAt`,
`receiptNumber = fee.receiptNumber || transactionReceipt`,
`paidBy`/`paidByUserId` = the caller.  Each fee is saved individually; the
net collection effect is this map over the stored fees. -/
def settleFee (isParent : Bool) (payerUserId now : Nat)
    (generatedReceipt : String) (sid : Nat) (f : Fee) : Fee :=
  if f.studentId = sid ∧ f.status = FeeStatus.Pending then
    { f with
      status := .Paid
      paidAt := some now
      receiptNumber := some (jsOrString f.receiptNumber generatedReceipt)
      paidBy := some (if isParent then PayerRole.parent else PayerRole.student)
      paidByUserId := some payerUserId }
  else f

/-- The `Payment.create` document written by a successful settlement in
`payMyFees` (`status: 'Completed'`, `transactionId: transactionId ||
transactionReceipt`). -/
def settlementPayment (isParent : Bool) (payerUserId sid : Nat)
    (amount : Int) (method : String) (transactionId : Option String)
    (generatedReceipt : String) : Payment := {
  studentId := sid
  payerType := if isParent then PayerRole.parent else PayerRole.student
  payerUserId := payerUserId
  amount := amount
  method := method
  status := "Completed"
  transactionId := jsOrString transactionId generatedReceipt }

/-- `payMyFees` (payment.controller.js).  The caller is already resolved to
the target student document id (`sid`; a parent pays for its linked
student).  `generatedReceipt` embeds the value of `generateReceiptNumber()`
and `now` the settlement time; `paymentWriteFails` embeds whether the
`Payment.create` inside the try/catch throws (the catch only logs).
Checks, in source order: `amount <= 0` is a 400; no pending fees is a
success no-op with empty `data`; `amount !== totalDue` is a 400 mismatch;
otherwise every pending fee is saved as paid, the Payment record is
attempted, and the response carries all of the student's fees (newest
first) and the generated receipt. -/
def payMyFees (isParent : Bool) (payerUserId sid : Nat) (amount : Int)
    (method : String) (transactionId : Option String)
    (now : Nat) (generatedReceipt : String) (paymentWriteFails : Bool)
    (fees : List Fee) (payments : List Payment) :
    PayOutcome × List Fee × List Payment :=
  if amount ≤ 0 then (.validationError, fees, payments)
  else
    let pending := pendingFeesOf fees sid
    if pending = [] then
      (.ok "No pending fees to pay" [] none, fees, payments)
    else
      let totalDue := (pending.map Fee.amount).sum
      if amount ≠ totalDue then (.amountMismatch, fees, payments)
      else
        let fees' := fees.map (settleFee isParent payerUserId now generatedReceipt sid)
        let payments' :=
          if paymentWriteFails then payments
          else payments ++ [settlementPayment isParent payerUserId sid amount
            method transactionId generatedReceipt]
        let data := sortFeesByCreatedAtDesc
          (fees'.filter (fun f => decide (f.studentId = sid)))
        (.ok "Payment recorded successfully" data (some generatedReceipt),
         fees', payments')

/-- Outcome of the fee CRUD handlers (`ok` carries the document as saved;
`validationError` is a 400, `notFound` a 404, `serverError` a 500 from
mongoose schema validation caught by the handler). -/
inductive FeeOutcome
  | ok (fee : Fee)
  | validationError
  | notFound
  | serverError
deriving DecidableEq, Repr

/-- `Fee.findById(id)` over the embedded collection. -/
def findFee (db : List Fee) (id : Nat) : Option Fee :=
  db.find? (fun f => decide (f.id = id))

/-- `createFee` (fee controller).  `!studentId || !amount || !term` is a 400
(JS falsiness: `amount = 0` and `term = ""` are falsy); `studentExists`
embeds the `Student.findById` lookup (404 on a miss); `Fee.create` then runs
schema validation — `amount` below the `min: 0` bound or a `status` string
outside `{'Paid','Pending'}` throws, caught as a 500.  The body `status`
defaults to `'Pending'` and is stored as given: a fee can be created
directly in `Paid` status, with neither `paidAt` nor `receiptNumber`. -/
def createFee (sid : Nat) (studentExists : Bool) (amount : Int)
    (term status : String) (newId now : Nat) (db : List Fee) :
    FeeOutcome × List Fee :=
  if amount = 0 ∨ term = "" then (.validationError, db)
  else if ¬ studentExists then (.notFound, db)
  else if amount < 0 then (.serverError, db)
  else if ¬ (status = "Pending" ∨ status = "Paid") then (.serverError, db)
  else
    let fee : Fee := {
      id := newId
      studentId := sid
      amount := amount
      term := jsTrim term
      status := if status = "Paid" then .Paid else .Pending
      receiptNumber := none
      paidAt := none
      paidBy := none
      paidByUserId := none
      createdAt := now }
    (.ok fee, db ++ [fee])

/-- The field-by-field assignment performed by `updateFee` on the fetched
fee: assign each body field that is present, and stamp `paidAt = now` when
moving to `'Paid'` with no `paidAt` yet.  A receipt number is assigned
whenever present in the body, with no uniqueness or emptiness check. -/
def applyFeeBodyUpdate (fee : Fee) (amount : Option Int)
    (status : Option String) (term receiptNumber : Option String)
    (now : Nat) : Fee :=
  let f1 := match amount with
    | some a => { fee with amount := a }
    | none => fee
  let f2 := match status with
    | some s =>
      let f' := { f1 with
        status := if s = "Paid" then FeeStatus.Paid else FeeStatus.Pending }
      if s = "Paid" ∧ f1.paidAt = none then { f' with paidAt := some now }
      else f'
    | none => f1
  let f3 := match term with
    | some t => { f2 with term := jsTrim t }
    | none => f2
  match receiptNumber with
  | some r => { f3 with receiptNumber := some (jsTrim r) }
  | none => f3

/-- `updateFee` (fee controller).  Reads by id (404 on a miss), applies
`applyFeeBodyUpdate`, then saves; schema validation at save (negative
amount, `status` outside the enum) throws, caught as a 500 leaving the
store unchanged. -/
def updateFee (feeId : Nat) (amount : Option Int) (status : Option String)
    (term : Option String) (receiptNumber : Option String) (now : Nat)
    (db : List Fee) : FeeOutcome × List Fee :=
  match findFee db feeId with
  | none => (.notFound, db)
  | some fee =>
    if (∀ a ∈ amount, 0 ≤ a) ∧
       (∀ s ∈ status, s = "Pending" ∨ s = "Paid") then
      let r := updateFirst (fun f => f.id = feeId)
        (fun _ => applyFeeBodyUpdate fee amount status term receiptNumber now)
        db
      match r.1 with
      | some updated => (.ok updated, r.2)
      | none => (.notFound, db)
    else (.serverError, db)

/-- The assignment performed by `markFeePaid` on the fetched fee: sets
`status = 'Paid'`, `paidAt = now`, `paidBy = 'warden'`, `paidByUserId`, and
— only `if (receiptNumber)` is truthy — the receipt number.  No receipt is
generated when none is given. -/
def markPaidFee (fee : Fee) (receiptNumber : Option String)
    (wardenUserId now : Nat) : Fee :=
  let f1 : Fee := { fee with
    status := .Paid
    paidAt := some now
    paidBy := some .warden
    paidByUserId := some wardenUserId }
  match receiptNumber with
  | some r => if r = "" then f1 else { f1 with receiptNumber := some (jsTrim r) }
  | none => f1

/-- `markFeePaid` (fee controller), the warden override.  Reads by id (404
on a miss), applies `markPaidFee`, then saves. -/
def markFeePaid (feeId : Nat) (receiptNumber : Option String)
    (wardenUserId now : Nat) (db : List Fee) : FeeOutcome × List Fee :=
  match findFee db feeId with
  | none => (.notFound, db)
  | some fee =>
    let r := updateFirst (fun f => f.id = feeId)
      (fun _ => markPaidFee fee receiptNumber wardenUserId now) db
    match r.1 with
    | some updated => (.ok updated, r.2)
    | none => (.notFound, db)

/-! ## Entry/exit toggle (entry-exit controller) -/

/-- The `status` of an `EntryExit` document. -/
inductive EEStatus
  | IN
  | OUT
deriving DecidableEq, Repr

/-- An `EntryExit` document. -/
structure EntryExitLog where
  id : Nat
  studentId : Nat
  inTime : Nat
  outTime : Option Nat
  status : EEStatus
  method : String
  createdAt : Nat
deriving DecidableEq, Repr

/-- `EntryExit.findOne({studentId}).sort({createdAt: -1})`: the subject's
log with the greatest creation time (the earliest stored one on a tie). -/
def latestLog (db : List EntryExitLog) (sid : Nat) : Option EntryExitLog :=
  (db.filter (fun l => decide (l.studentId = sid))).foldl
    (fun acc l =>
      match acc with
      | none => some l
      | some m => if m.createdAt < l.createdAt then some l else some m)
    none

/-- Outcome of the entry/exit handlers.  `alreadyIn` is the 400
`'Student is already marked as IN'` response of `markEntry`, `notIn` the
400 `'Student is not currently marked as IN'` response of `markExit`;
both are the guard the spec's error taxonomy calls Conflict. -/
inductive EEOutcome
  | created (log : EntryExitLog)
  | exited (log : EntryExitLog)
  | alreadyIn
  | notIn
deriving DecidableEq, Repr

/-- `markEntry` (entry-exit controller).  The caller is already resolved to
the target student document id.  Fails when the latest log is `IN`;
otherwise creates `{studentId, inTime: now, status: 'IN', method}` (no
`outTime`). -/
def markEntry (sid : Nat) (method : String) (now newId : Nat)
    (db : List EntryExitLog) : EEOutcome × List EntryExitLog :=
  let newLog : EntryExitLog := {
    id := newId
    studentId := sid
    inTime := now
    outTime := none
    status := .IN
    method := method
    createdAt := now }
  match latestLog db sid with
  | some l =>
    if l.status = EEStatus.IN then (.alreadyIn, db)
    else (.created newLog, db ++ [newLog])
  | none => (.created newLog, db ++ [newLog])

/-- `markExit` (entry-exit controller).  Fails when there is no log or the
latest log is `OUT`; otherwise mutates that latest log in place:
`outTime = now`, `status = 'OUT'`, `method = method`, and saves it. -/
def markExit (sid : Nat) (method : String) (now : Nat)
    (db : List EntryExitLog) : EEOutcome × List EntryExitLog :=
  match latestLog db sid with
  | none => (.notIn, db)
  | some l =>
    if l.status = EEStatus.OUT then (.notIn, db)
    else
      let l' : EntryExitLog := { l with
        outTime := some now
        status := .OUT
        method := method }
      (.exited l', db.map (fun x => if x.id = l.id then l' else x))

/-! ## Lemmas about the conditional-update primitive -/

theorem updateFirst_cons_pos {α : Type} {p : α → Prop} [DecidablePred p]
    {f : α → α} {x : α} {xs : List α} (h : p x) :
    updateFirst p f (x :: xs) = (some (f x), f x :: xs) := by
  simp [updateFirst, h]

theorem updateFirst_cons_neg {α : Type} {p : α → Prop} [DecidablePred p]
    {f : α → α} {x : α} {xs : List α} (h : ¬ p x) :
    updateFirst p f (x :: xs) =
      ((updateFirst p f xs).1, x :: (updateFirst p f xs).2) := by
  simp [updateFirst, h]

/-- A conditional update whose filter matches nothing misses and leaves the
collection unchanged. -/
theorem updateFirst_no_match {α : Type} {p : α → Prop} [DecidablePred p]
    {f : α → α} {db : List α} (h : ∀ x ∈ db, ¬ p x) :
    updateFirst p f db = (none, db) := by
  induction db with
  | nil => rfl
  | cons x xs ih =>
    rw [updateFirst_cons_neg (h x (List.mem_cons_self x xs)),
        ih (fun y hy => h y (List.mem_cons_of_mem x hy))]

/-- A conditional update hits the first matching document and rewrites
exactly it. -/
theorem updateFirst_match {α : Type} {p : α → Prop} [DecidablePred p]
    {f : α → α} {pre : List α} {x : α} {post : List α}
    (hpre : ∀ y ∈ pre, ¬ p y) (hx : p x) :
    updateFirst p f (pre ++ x :: post) = (some (f x), pre ++ f x :: post) := by
  induction pre with
  | nil => simpa using updateFirst_cons_pos hx
  | cons y ys ih =>
    have hy : ¬ p y := hpre y (List.mem_cons_self y ys)
    rw [List.cons_append, updateFirst_cons_neg hy,
        ih (fun z hz => hpre z (List.mem_cons_of_mem y hz))]
    rfl

/-- Inversion: a hit of the conditional update decomposes the collection
around the first match. -/
theorem updateFirst_some {α : Type} {p : α → Prop} [DecidablePred p]
    {f : α → α} {db db2 : List α} {u : α}
    (h : updateFirst p f db = (some u, db2)) :
    ∃ pre x post, db = pre ++ x :: post ∧ (∀ y ∈ pre, ¬ p y) ∧ p x ∧
      u = f x ∧ db2 = pre ++ f x :: post := by
  induction db generalizing db2 with
  | nil => simp [updateFirst] at h
  | cons y ys ih =>
    by_cases hy : p y
    · rw [updateFirst_cons_pos hy] at h
      simp only [Prod.mk.injEq, Option.some.injEq] at h
      obtain ⟨h1, h2⟩ := h
      exact ⟨[], y, ys, rfl, by simp, hy, h1.symm, by simpa using h2.symm⟩
    · rw [updateFirst_cons_neg hy] at h
      simp only [Prod.mk.injEq] at h
      obtain ⟨h1, h2⟩ := h
      have h1' : updateFirst p f ys
          = (some u, (updateFirst p f ys).2) := by
        rw [← h1]
      obtain ⟨pre, x, post, hdb, hpre, hx, hu, hdb2⟩ := ih h1'
      refine ⟨y :: pre, x, post, by simp [hdb], ?_, hx, hu, ?_⟩
      · intro z hz
        rcases List.mem_cons.mp hz with rfl | hz'
        · exact hy
        · exact hpre z hz'
      · rw [← h2, hdb2]; rfl

/-- Any member of the collection after a conditional update is either an
untouched original document or the rewritten image of an original. -/
theorem updateFirst_mem {α : Type} {p : α → Prop} [DecidablePred p]
    {f : α → α} {db : List α} {y : α} (hy : y ∈ (updateFirst p f db).2) :
    y ∈ db ∨ ∃ x ∈ db, y = f x := by
  induction db with
  | nil => simp [updateFirst] at hy
  | cons z zs ih =>
    by_cases hz : p z
    · simp only [updateFirst_cons_pos hz] at hy
      rcases List.mem_cons.mp hy with rfl | h
      · exact Or.inr ⟨z, List.mem_cons_self z zs, rfl⟩
      · exact Or.inl (List.mem_cons_of_mem _ h)
    · simp only [updateFirst_cons_neg hz] at hy
      rcases List.mem_cons.mp hy with rfl | h
      · exact Or.inl (List.mem_cons_self _ _)
      · rcases ih h with h' | ⟨x, hx, rfl⟩
        · exact Or.inl (List.mem_cons_of_mem _ h')
        · exact Or.inr ⟨x, List.mem_cons_of_mem _ hx, rfl⟩

/-- The settlement branch of `payMyFees`: with a positive amount equal to
the pending total and at least one pending fee, every guard passes and the
handler saves the settled fees, attempts the Payment write, and reports
success with the generated receipt. -/
theorem payMyFees_settle_eq (isParent : Bool) (payerUserId sid : Nat)
    (amount : Int) (method : String) (transactionId : Option String)
    (now : Nat) (generatedReceipt : String) (paymentWriteFails : Bool)
    (fees : List Fee) (payments : List Payment)
    (hpos : 0 < amount) (hne : pendingFeesOf fees sid ≠ [])
    (hsum : amount = ((pendingFeesOf fees sid).map Fee.amount).sum) :
    payMyFees isParent payerUserId sid amount method transactionId now
      generatedReceipt paymentWriteFails fees payments =
      (.ok "Payment recorded successfully"
        (sortFeesByCreatedAtDesc
          ((fees.map (settleFee isParent payerUserId now generatedReceipt
            sid)).filter (fun f => decide (f.studentId = sid))))
        (some generatedReceipt),
       fees.map (settleFee isParent payerUserId now generatedReceipt sid),
       if paymentWriteFails then payments
       else payments ++ [settlementPayment isParent payerUserId sid amount
         method transactionId generatedReceipt]) := by
  simp only [payMyFees, if_neg (not_le.mpr hpos), if_neg hne,
    if_neg (not_not_intro hsum)]

/-! ## Concrete sample documents for witnesses and counterexamples -/

/-- A leave request exactly as `createLeaveRequest` stores it (status
`PendingParent`, one history entry). -/
def sampleLeave : LeaveRequest := {
  id := 0
  studentId := 1
  reason := "trip"
  type := "Other"
  status := .PendingParent
  outDate := 0
  inDate := 86400000
  outTime := none
  inTime := none
  approvedBy := none
  approvedAt := none
  rejectionReason := none
  parentApprovalStatus := some "Pending"
  parentApprovedBy := none
  parentApprovedAt := none
  parentRejectionReason := none
  statusHistory := [{ status := .PendingParent, updatedBy := none,
                      role := "student", reason := none, timestamp := 0 }] }

/-- A leave request already approved by the parent. -/
def sampleLeaveABP : LeaveRequest :=
  applyParentDecision 7 .approve none 10 sampleLeave

/-! ## Claim theorems -/

/-- C2: WardenDecide (`updateLeaveStatus`) on a request whose current
status is not exactly `ApprovedByParent` fails with 409 Conflict when the
request exists and with 404 NotFound when it does not, and in either
failure case the stored collection — hence the stored request — is left
entirely unchanged. -/
theorem wardenDecide_nonApprovedByParent_fails (wardenUserId id : Nat)
    (decision : Decision) (rejectionReason : Option String) (now : Nat)
    (db : List LeaveRequest) :
    ((∀ r ∈ db, r.id ≠ id) →
      updateLeaveStatus wardenUserId id decision rejectionReason now db
        = (.notFound, db)) ∧
    ((∃ r ∈ db, r.id = id) →
     (∀ r ∈ db, r.id = id → r.status ≠ LeaveStatus.ApprovedByParent) →
      updateLeaveStatus wardenUserId id decision rejectionReason now db
        = (.conflict, db)) := by
  constructor
  · intro hno
    have hmiss : updateFirst
        (fun l => l.id = id ∧ l.status = LeaveStatus.ApprovedByParent)
        (applyWardenDecision wardenUserId decision rejectionReason now) db
        = (none, db) :=
      updateFirst_no_match (fun x hx hpx => hno x hx hpx.1)
    have hfind : findLeave db id = none := by
      unfold findLeave
      rw [List.find?_eq_none]
      intro x hx
      simp [hno x hx]
    simp only [updateLeaveStatus]
    rw [hmiss]
    simp [hfind]
  · intro hex hstat
    have hmiss : updateFirst
        (fun l => l.id = id ∧ l.status = LeaveStatus.ApprovedByParent)
        (applyWardenDecision wardenUserId decision rejectionReason now) db
        = (none, db) :=
      updateFirst_no_match (fun x hx hpx => hstat x hx hpx.1 hpx.2)
    have hsome : (findLeave db id).isSome := by
      unfold findLeave
      rw [List.find?_isSome]
      obtain ⟨r, hr, hid⟩ := hex
      exact ⟨r, hr, by simp [hid]⟩
    obtain ⟨r, hr⟩ := Option.isSome_iff_exists.mp hsome
    simp only [updateLeaveStatus]
    rw [hmiss]
    simp [hr]

/-- C2 witness: at a concrete request id absent from the store the warden
decision reports NotFound; on a concrete stored request still in
`PendingParent` it reports Conflict; both leave the store unchanged. -/
theorem wardenDecide_nonApprovedByParent_fails_witness :
    updateLeaveStatus 5 7 .approve none 99 [] = (.notFound, []) ∧
    updateLeaveStatus 5 0 .approve none 99 [sampleLeave]
      = (.conflict, [sampleLeave]) :=
  ⟨(wardenDecide_nonApprovedByParent_fails 5 7 .approve none 99 []).1
      (by decide),
   (wardenDecide_nonApprovedByParent_fails 5 0 .approve none 99
      [sampleLeave]).2 (by decide) (by decide)⟩

/-- C3: ParentDecide (`parentApproveOrReject`) mutates a leave request only
via the conditional update matching `{_id: id, studentId: parent's linked
student, status: 'PendingParent'}` — on a hit it rewrites exactly the first
matching document — and when the match fails it reports 404 NotFound if the
request does not exist, 403 Forbidden if it belongs to a subject other than
the parent's linked student, and 409 Conflict if it exists, belongs to the
parent's subject, and its status is no longer `PendingParent`; every
failure leaves the store unchanged. -/
theorem parentDecide_conditional_update (ps pu id : Nat)
    (decision : Decision) (rejectionReason : Option String) (now : Nat)
    (db : List LeaveRequest) :
    (∀ pre old post, db = pre ++ old :: post →
      (∀ y ∈ pre, ¬ (y.id = id ∧ y.studentId = ps ∧
                     y.status = LeaveStatus.PendingParent)) →
      old.id = id → old.studentId = ps →
      old.status = LeaveStatus.PendingParent →
      parentApproveOrReject ps pu id decision rejectionReason now db =
        (.ok (applyParentDecision pu decision rejectionReason now old),
         pre ++ applyParentDecision pu decision rejectionReason now old
           :: post)) ∧
    ((∀ r ∈ db, r.id ≠ id) →
      parentApproveOrReject ps pu id decision rejectionReason now db
        = (.notFound, db)) ∧
    ((∃ r ∈ db, r.id = id) →
     (∀ r ∈ db, r.id = id → r.studentId ≠ ps) →
      parentApproveOrReject ps pu id decision rejectionReason now db
        = (.forbidden, db)) ∧
    ((∃ r ∈ db, r.id = id) →
     (∀ r ∈ db, r.id = id → r.studentId = ps) →
     (∀ r ∈ db, r.id = id → r.status ≠ LeaveStatus.PendingParent) →
      parentApproveOrReject ps pu id decision rejectionReason now db
        = (.conflict, db)) := by
  refine ⟨?_, ?_, ?_, ?_⟩
  · intro pre old post hdb hpre hid hsid hstat
    subst hdb
    have hhit := @updateFirst_match LeaveRequest
      (fun l => l.id = id ∧ l.studentId = ps ∧
                l.status = LeaveStatus.PendingParent) _
      (applyParentDecision pu decision rejectionReason now) pre old post
      hpre ⟨hid, hsid, hstat⟩
    simp only [parentApproveOrReject]
    rw [hhit]
  · intro hno
    have hmiss : updateFirst
        (fun l => l.id = id ∧ l.studentId = ps ∧
                  l.status = LeaveStatus.PendingParent)
        (applyParentDecision pu decision rejectionReason now) db
        = (none, db) :=
      updateFirst_no_match (fun x hx hpx => hno x hx hpx.1)
    have hfind : findLeave db id = none := by
      unfold findLeave
      rw [List.find?_eq_none]
      intro x hx
      simp [hno x hx]
    simp only [parentApproveOrReject]
    rw [hmiss]
    simp [hfind]
  · intro hex hforb
    have hmiss : updateFirst
        (fun l => l.id = id ∧ l.studentId = ps ∧
                  l.status = LeaveStatus.PendingParent)
        (applyParentDecision pu decision rejectionReason now) db
        = (none, db) :=
      updateFirst_no_match (fun x hx hpx => hforb x hx hpx.1 hpx.2.1)
    have hsome : (findLeave db id).isSome := by
      unfold findLeave
      rw [List.find?_isSome]
      obtain ⟨r, hr, hid⟩ := hex
      exact ⟨r, hr, by simp [hid]⟩
    obtain ⟨r, hr⟩ := Option.isSome_iff_exists.mp hsome
    have hrid : r.id = id := by
      have := List.find?_some hr
      simpa using this
    have hrmem : r ∈ db := List.mem_of_find?_eq_some hr
    have hrforb : r.studentId ≠ ps := hforb r hrmem hrid
    simp only [parentApproveOrReject]
    rw [hmiss]
    simp [findLeave] at hr
    simp [findLeave, hr, hrforb]
  · intro hex hown hstat
    have hmiss : updateFirst
        (fun l => l.id = id ∧ l.studentId = ps ∧
                  l.status = LeaveStatus.PendingParent)
        (applyParentDecision pu decision rejectionReason now) db
        = (none, db) :=
      updateFirst_no_match (fun x hx hpx => hstat x hx hpx.1 hpx.2.2)
    have hsome : (findLeave db id).isSome := by
      unfold findLeave
      rw [List.find?_isSome]
      obtain ⟨r, hr, hid⟩ := hex
      exact ⟨r, hr, by simp [hid]⟩
    obtain ⟨r, hr⟩ := Option.isSome_iff_exists.mp hsome
    have hrid : r.id = id := by
      have := List.find?_some hr
      simpa using this
    have hrmem : r ∈ db := List.mem_of_find?_eq_some hr
    have hrown : r.studentId = ps := hown r hrmem hrid
    simp only [parentApproveOrReject]
    rw [hmiss]
    simp [findLeave] at hr
    simp [findLeave, hr, hrown]

/-- C3 witness: on a one-request store, a concrete parent approval in
`PendingParent` succeeds with the conditional update applied; and each
failure triage — absent id, other student's request, already-processed
request — is reached at a concrete input. -/
theorem parentDecide_conditional_update_witness :
    parentApproveOrReject 1 7 0 .approve none 10 [sampleLeave]
      = (.ok sampleLeaveABP, [sampleLeaveABP]) ∧
    parentApproveOrReject 1 7 3 .approve none 10 [] = (.notFound, []) ∧
    parentApproveOrReject 2 7 0 .approve none 10 [sampleLeave]
      = (.forbidden, [sampleLeave]) ∧
    parentApproveOrReject 1 7 0 .approve none 10 [sampleLeaveABP]
      = (.conflict, [sampleLeaveABP]) :=
  ⟨(parentDecide_conditional_update 1 7 0 .approve none 10
      [sampleLeave]).1 [] sampleLeave [] rfl (by simp) (by decide)
      (by decide) (by decide),
   (parentDecide_conditional_update 1 7 3 .approve none 10 []).2.1
      (by simp),
   (parentDecide_conditional_update 2 7 0 .approve none 10
      [sampleLeave]).2.2.1 (by decide) (by decide),
   (parentDecide_conditional_update 1 7 0 .approve none 10
      [sampleLeaveABP]).2.2.2 (by decide) (by decide) (by decide)⟩

/-- The request of `sampleLeaveABP` after a concrete warden approval. -/
def sampleLeaveApproved : LeaveRequest :=
  applyWardenDecision 5 .approve none 20 sampleLeaveABP

/-- The request of `sampleLeave` after a concrete student cancellation. -/
def sampleLeaveCancelled : LeaveRequest :=
  { sampleLeave with status := .Cancelled }

/-- C1 counterexample: cancelling a concrete `PendingParent` request
succeeds (`cancelMyLeaveRequest` returns 200), yet the stored
`statusHistory` still has its old length 1 — the length does not strictly
increase by one on this successful transition, refuting the claim for the
Cancel operation. -/
theorem leave_statusHistory_cancel_counterexample :
    (cancelMyLeaveRequest 1 0 [sampleLeave]).1
      = LeaveOutcome.ok sampleLeaveCancelled ∧
    ((cancelMyLeaveRequest 1 0 [sampleLeave]).2.map
        (fun l => l.statusHistory.length)) = [1] ∧
    sampleLeave.statusHistory.length = 1 := by decide

/-- C1 (amended): Submit creates a request whose history has exactly one
entry; every successful ParentDecide and WardenDecide transition appends
exactly one entry to the matched request's history, leaving all existing
entries and all other stored requests unchanged; a successful Cancel
changes only the request's status and appends no history entry, leaving the
history exactly as it was; no operation ever removes or mutates an existing
entry. -/
theorem leave_statusHistory_growth :
    (∀ sid reason type outDate inDate outTime inTime now newId db r db2,
      createLeaveRequest sid reason type outDate inDate outTime inTime now
        newId db = (.ok r, db2) →
      r.statusHistory.length = 1 ∧ db2 = db ++ [r]) ∧
    (∀ ps pu id decision rr now db r db2,
      parentApproveOrReject ps pu id decision rr now db = (.ok r, db2) →
      ∃ pre old post, db = pre ++ old :: post ∧ db2 = pre ++ r :: post ∧
        r.statusHistory = old.statusHistory
          ++ [parentHistoryEntry pu decision rr now]) ∧
    (∀ wu id decision rr now db r db2,
      updateLeaveStatus wu id decision rr now db = (.ok r, db2) →
      ∃ pre old post, db = pre ++ old :: post ∧ db2 = pre ++ r :: post ∧
        r.statusHistory = old.statusHistory
          ++ [wardenHistoryEntry wu decision rr now]) ∧
    (∀ sid id db r db2,
      cancelMyLeaveRequest sid id db = (.ok r, db2) →
      ∃ pre old post, db = pre ++ old :: post ∧ db2 = pre ++ r :: post ∧
        r.statusHistory = old.statusHistory) := by
  refine ⟨?_, ?_, ?_, ?_⟩
  · intro sid reason type outDate inDate outTime inTime now newId db r db2 h
    simp only [createLeaveRequest] at h
    split at h
    · simp at h
    · split at h
      · simp at h
      · split at h
        · simp at h
        · split at h
          · simp at h
          · split at h
            · simp at h
            · simp only [Prod.mk.injEq, LeaveOutcome.ok.injEq] at h
              obtain ⟨h1, h2⟩ := h
              subst h1
              exact ⟨rfl, h2.symm⟩
  · intro ps pu id decision rr now db r db2 h
    simp only [parentApproveOrReject] at h
    rcases hu : updateFirst
        (fun l => l.id = id ∧ l.studentId = ps ∧
                  l.status = LeaveStatus.PendingParent)
        (applyParentDecision pu decision rr now) db with ⟨u, db'⟩
    rw [hu] at h
    cases u with
    | none =>
      simp only [] at h
      split at h
      · simp at h
      · split at h <;> simp at h
    | some w =>
      simp only [Prod.mk.injEq, LeaveOutcome.ok.injEq] at h
      obtain ⟨h1, h2⟩ := h
      obtain ⟨pre, x, post, hdb, hpre, hx, huw, hdb2⟩ := updateFirst_some hu
      subst h1
      refine ⟨pre, x, post, hdb, ?_, ?_⟩
      · rw [← h2, hdb2, huw]
      · rw [huw]
        rfl
  · intro wu id decision rr now db r db2 h
    simp only [updateLeaveStatus] at h
    rcases hu : updateFirst
        (fun l => l.id = id ∧ l.status = LeaveStatus.ApprovedByParent)
        (applyWardenDecision wu decision rr now) db with ⟨u, db'⟩
    rw [hu] at h
    cases u with
    | none =>
      simp only [] at h
      split at h <;> simp at h
    | some w =>
      simp only [Prod.mk.injEq, LeaveOutcome.ok.injEq] at h
      obtain ⟨h1, h2⟩ := h
      obtain ⟨pre, x, post, hdb, hpre, hx, huw, hdb2⟩ := updateFirst_some hu
      subst h1
      refine ⟨pre, x, post, hdb, ?_, ?_⟩
      · rw [← h2, hdb2, huw]
      · rw [huw]
        rfl
  · intro sid id db r db2 h
    simp only [cancelMyLeaveRequest] at h
    split at h
    · simp at h
    · split at h
      · simp at h
      · split at h
        · simp at h
        · split at h
          · simp at h
          · split at h
            · next w heq =>
              have hu : updateFirst (fun l => l.id = id)
                  (fun l => { l with status := LeaveStatus.Cancelled }) db
                  = (some w,
                     (updateFirst (fun l => l.id = id)
                       (fun l => { l with status := LeaveStatus.Cancelled })
                       db).2) := by
                rw [← heq]
              obtain ⟨pre, x, post, hdb, hpre, hx, huw, hdb2⟩ :=
                updateFirst_some hu
              simp only [Prod.mk.injEq, LeaveOutcome.ok.injEq] at h
              obtain ⟨h1, h2⟩ := h
              subst h1
              refine ⟨pre, x, post, hdb, ?_, ?_⟩
              · rw [← h2, hdb2, huw]
              · rw [huw]
            · simp at h

/-- C1 witness (amended claim at concrete inputs): a concrete submission
starts with one history entry; concrete parent and warden approvals and a
concrete cancellation exercise the three transition conjuncts. -/
theorem leave_statusHistory_growth_witness :
    (sampleLeave.statusHistory.length = 1 ∧
      ([sampleLeave] : List LeaveRequest) = [] ++ [sampleLeave]) ∧
    (∃ pre old post, ([sampleLeave] : List LeaveRequest)
        = pre ++ old :: post ∧
      [sampleLeaveABP] = pre ++ sampleLeaveABP :: post ∧
      sampleLeaveABP.statusHistory = old.statusHistory
        ++ [parentHistoryEntry 7 .approve none 10]) ∧
    (∃ pre old post, ([sampleLeaveABP] : List LeaveRequest)
        = pre ++ old :: post ∧
      [sampleLeaveApproved] = pre ++ sampleLeaveApproved :: post ∧
      sampleLeaveApproved.statusHistory = old.statusHistory
        ++ [wardenHistoryEntry 5 .approve none 20]) ∧
    (∃ pre old post, ([sampleLeave] : List LeaveRequest)
        = pre ++ old :: post ∧
      [sampleLeaveCancelled] = pre ++ sampleLeaveCancelled :: post ∧
      sampleLeaveCancelled.statusHistory = old.statusHistory) :=
  ⟨leave_statusHistory_growth.1 1 "trip" "Other" 0 86400000 none none 0 0
      [] sampleLeave [sampleLeave] (by decide),
   leave_statusHistory_growth.2.1 1 7 0 .approve none 10 [sampleLeave]
      sampleLeaveABP [sampleLeaveABP] (by decide),
   leave_statusHistory_growth.2.2.1 5 0 .approve none 20 [sampleLeaveABP]
      sampleLeaveApproved [sampleLeaveApproved] (by decide),
   leave_statusHistory_growth.2.2.2 1 0 [sampleLeave] sampleLeaveCancelled
      [sampleLeaveCancelled] (by decide)⟩

/-- C9 counterexample: a concrete submission whose scheduled-in timestamp
equals its scheduled-out timestamp (both 100) is rejected by
`createLeaveRequest` with a 400 ValidationError — refuting the claim that
equal timestamps are accepted. -/
theorem submit_equal_dates_counterexample :
    createLeaveRequest 1 "trip" "Other" 100 100 none none 0 0 []
      = (.badRequest, []) := by decide

/-- C9 (amended): given a reason that is still nonempty after trimming
(otherwise `Leave.create`'s `required` validator rejects it) and a valid
type, `createLeaveRequest` accepts exactly when the scheduled-out timestamp
is strictly before the scheduled-in timestamp, and rejects with a 400
ValidationError whenever `outDate ≥ inDate` — in particular a request with
scheduled-in equal to scheduled-out is rejected at creation (the
`pre('save')` hook alone would admit equality, but the controller check
`outDateObj >= inDateObj` runs first). -/
theorem submit_accepts_iff_strictly_before (sid : Nat) (reason type : String)
    (outDate inDate : Int) (outTime inTime : Option String) (now newId : Nat)
    (db : List LeaveRequest) (hr : jsTrim reason ≠ "")
    (ht : leaveTypeValid type) :
    ((∃ r db2, createLeaveRequest sid reason type outDate inDate outTime
        inTime now newId db = (.ok r, db2)) ↔ outDate < inDate) ∧
    (outDate ≥ inDate →
      createLeaveRequest sid reason type outDate inDate outTime inTime now
        newId db = (.badRequest, db)) := by
  have hr' : reason ≠ "" := by
    intro h
    exact hr (by rw [h]; rfl)
  have ht' : type ≠ "" := by
    rcases ht with h | h | h | h | h | h <;> (subst h; decide)
  constructor
  · constructor
    · rintro ⟨r, db2, h⟩
      simp only [createLeaveRequest] at h
      split at h
      · simp at h
      · split at h
        · simp at h
        · next hge =>
          exact lt_of_not_ge hge
    · intro hlt
      simp only [createLeaveRequest]
      rw [if_neg (not_or.mpr ⟨hr', ht'⟩), if_neg (not_le.mpr hlt),
          if_neg hr, if_neg (not_not_intro ht),
          if_neg (not_lt.mpr (le_of_lt hlt))]
      exact ⟨_, _, rfl⟩
  · intro hge
    simp only [createLeaveRequest]
    rw [if_neg (not_or.mpr ⟨hr', ht'⟩), if_pos hge]

/-- C9 witness: the amended claim at a concrete input — a one-day request
(out 0, in 86400000) is accepted, and the rejection branch is available
whenever out ≥ in. -/
theorem submit_accepts_iff_strictly_before_witness :
    ((∃ r db2, createLeaveRequest 1 "trip" "Other" 0 86400000 none none 0 0
        [] = (.ok r, db2)) ↔ (0 : Int) < 86400000) ∧
    ((0 : Int) ≥ 86400000 →
      createLeaveRequest 1 "trip" "Other" 0 86400000 none none 0 0 []
        = (.badRequest, [])) :=
  submit_accepts_iff_strictly_before 1 "trip" "Other" 0 86400000 none none
    0 0 [] (by decide) (by decide)

/-- A concrete open (`IN`) entry log, as `markEntry` creates it. -/
def sampleLogIn : EntryExitLog := {
  id := 0
  studentId := 1
  inTime := 5
  outTime := none
  status := .IN
  method := "Manual"
  createdAt := 5 }

/-- `sampleLogIn` after a concrete exit. -/
def sampleLogOut : EntryExitLog :=
  { sampleLogIn with outTime := some 9, status := .OUT, method := "QR" }

/-- C7: `markEntry` fails (the 400 `'Student is already marked as IN'`
guard, the Conflict of the spec's taxonomy) exactly when the subject's most
recent log by creation time has status `IN`, leaving the store unchanged,
and otherwise creates a new log with status `IN`, `inTime = now` and no
`outTime`; `markExit` fails (400 `'Student is not currently marked as IN'`)
exactly when the subject has no log or the most recent log is `OUT`,
leaving the store unchanged, and otherwise mutates that most recent log in
place, setting `outTime = now`, `status = 'OUT'` and overwriting `method`
with the exit's own method. -/
theorem entry_exit_toggle (sid : Nat) (method : String) (now newId : Nat)
    (db : List EntryExitLog) :
    ((markEntry sid method now newId db).1 = .alreadyIn ↔
      ∃ l, latestLog db sid = some l ∧ l.status = EEStatus.IN) ∧
    ((markEntry sid method now newId db).1 = .alreadyIn →
      (markEntry sid method now newId db).2 = db) ∧
    ((∀ l, latestLog db sid = some l → l.status ≠ EEStatus.IN) →
      markEntry sid method now newId db =
        (.created { id := newId, studentId := sid, inTime := now,
                    outTime := none, status := .IN, method := method,
                    createdAt := now },
         db ++ [{ id := newId, studentId := sid, inTime := now,
                  outTime := none, status := .IN, method := method,
                  createdAt := now }])) ∧
    ((markExit sid method now db).1 = .notIn ↔
      latestLog db sid = none ∨
        ∃ l, latestLog db sid = some l ∧ l.status = EEStatus.OUT) ∧
    ((markExit sid method now db).1 = .notIn →
      (markExit sid method now db).2 = db) ∧
    (∀ l, latestLog db sid = some l → l.status = EEStatus.IN →
      markExit sid method now db =
        (EEOutcome.exited { l with
            outTime := some now,
            status := EEStatus.OUT,
            method := method },
         db.map (fun x => if x.id = l.id then
           { l with
              outTime := some now,
              status := EEStatus.OUT,
              method := method }
           else x))) := by
  refine ⟨?_, ?_, ?_, ?_, ?_, ?_⟩
  · rcases hl : latestLog db sid with _ | l
    · simp [markEntry, hl]
    · by_cases hst : l.status = EEStatus.IN
      · simp [markEntry, hl, hst]
      · simp [markEntry, hl, hst]
  · intro h
    rcases hl : latestLog db sid with _ | l
    · simp [markEntry, hl] at h
    · by_cases hst : l.status = EEStatus.IN
      · simp [markEntry, hl, hst]
      · simp [markEntry, hl, hst] at h
  · intro hno
    rcases hl : latestLog db sid with _ | l
    · simp [markEntry, hl]
    · simp [markEntry, hl, hno l hl]
  · rcases hl : latestLog db sid with _ | l
    · simp [markExit, hl]
    · by_cases hst : l.status = EEStatus.OUT
      · simp [markExit, hl, hst]
      · simp only [markExit, hl]
        rw [if_neg hst]
        simp [hst]
  · intro h
    rcases hl : latestLog db sid with _ | l
    · simp [markExit, hl]
    · by_cases hst : l.status = EEStatus.OUT
      · simp [markExit, hl, hst]
      · simp [markExit, hl, hst] at h
  · intro l hl hst
    have hst' : l.status ≠ EEStatus.OUT := by
      rw [hst]; decide
    simp [markExit, hl, hst']

/-- C7 witness: a concrete first entry creates an `IN` log; re-entering
while `IN` leaves the store unchanged; exiting with no log leaves the store
unchanged; a concrete exit mutates the open log in place with the exit's
own method. -/
theorem entry_exit_toggle_witness :
    (markEntry 1 "Manual" 7 3 [sampleLogIn]).2 = [sampleLogIn] ∧
    markEntry 1 "Manual" 5 0 [] = (.created sampleLogIn, [sampleLogIn]) ∧
    (markExit 1 "Manual" 9 []).2 = [] ∧
    markExit 1 "QR" 9 [sampleLogIn] = (.exited sampleLogOut, [sampleLogOut]) :=
  ⟨(entry_exit_toggle 1 "Manual" 7 3 [sampleLogIn]).2.1 (by decide),
   (entry_exit_toggle 1 "Manual" 5 0 []).2.2.1
      (by intro l h; simp [latestLog] at h),
   (entry_exit_toggle 1 "Manual" 9 0 []).2.2.2.2.1 (by decide),
   (entry_exit_toggle 1 "QR" 9 0 [sampleLogIn]).2.2.2.2.2 sampleLogIn
      (by decide) (by decide)⟩

/-- The implicit well-formedness of an `EntryExit` document: an `OUT` log
carries an out-timestamp and an `IN` log carries none. -/
def LogWF (l : EntryExitLog) : Prop :=
  (l.status = EEStatus.OUT → l.outTime.isSome) ∧
  (l.status = EEStatus.IN → l.outTime = none)

instance (l : EntryExitLog) : Decidable (LogWF l) := by
  unfold LogWF; infer_instance

/-- C10: every log is created by `markEntry` with status `IN`, an `inTime`,
and no `outTime`; only `markExit` ever sets `outTime`, doing so together
with setting status `OUT`; hence both operations preserve the invariant
that a log with status `OUT` has `outTime` set and a log with status `IN`
has none. -/
theorem entry_exit_outTime_invariant (sid : Nat) (method : String)
    (now newId : Nat) (db : List EntryExitLog) :
    ((∀ l ∈ db, LogWF l) →
      ∀ l ∈ (markEntry sid method now newId db).2, LogWF l) ∧
    ((∀ l ∈ db, LogWF l) →
      ∀ l ∈ (markExit sid method now db).2, LogWF l) ∧
    (∀ r db2, markEntry sid method now newId db = (.created r, db2) →
      r.status = EEStatus.IN ∧ r.inTime = now ∧ r.outTime = none ∧
      db2 = db ++ [r]) ∧
    (∀ r db2, markExit sid method now db = (.exited r, db2) →
      r.status = EEStatus.OUT ∧ r.outTime = some now) := by
  refine ⟨?_, ?_, ?_, ?_⟩
  · intro hinv l hl
    rcases hlat : latestLog db sid with _ | m
    · simp only [markEntry, hlat] at hl
      rcases List.mem_append.mp hl with hmem | hmem
      · exact hinv l hmem
      · rcases List.mem_singleton.mp hmem with rfl
        exact ⟨by simp, fun _ => rfl⟩
    · by_cases hst : m.status = EEStatus.IN
      · simp only [markEntry, hlat, if_pos hst] at hl
        exact hinv l hl
      · simp only [markEntry, hlat, if_neg hst] at hl
        rcases List.mem_append.mp hl with hmem | hmem
        · exact hinv l hmem
        · rcases List.mem_singleton.mp hmem with rfl
          exact ⟨by simp, fun _ => rfl⟩
  · intro hinv l hl
    rcases hlat : latestLog db sid with _ | m
    · simp only [markExit, hlat] at hl
      exact hinv l hl
    · by_cases hst : m.status = EEStatus.OUT
      · simp only [markExit, hlat, if_pos hst] at hl
        exact hinv l hl
      · simp only [markExit, hlat, if_neg hst] at hl
        rcases List.mem_map.mp hl with ⟨x, hx, rfl⟩
        by_cases hid : x.id = m.id
        · rw [if_pos hid]
          exact ⟨fun _ => rfl, by simp⟩
        · rw [if_neg hid]
          exact hinv x hx
  · intro r db2 h
    rcases hlat : latestLog db sid with _ | m
    · simp only [markEntry, hlat, Prod.mk.injEq,
        EEOutcome.created.injEq] at h
      obtain ⟨h1, h2⟩ := h
      subst h1
      exact ⟨rfl, rfl, rfl, h2.symm⟩
    · by_cases hst : m.status = EEStatus.IN
      · simp [markEntry, hlat, hst] at h
      · simp only [markEntry, hlat, if_neg hst, Prod.mk.injEq,
          EEOutcome.created.injEq] at h
        obtain ⟨h1, h2⟩ := h
        subst h1
        exact ⟨rfl, rfl, rfl, h2.symm⟩
  · intro r db2 h
    rcases hlat : latestLog db sid with _ | m
    · simp [markExit, hlat] at h
    · by_cases hst : m.status = EEStatus.OUT
      · simp [markExit, hlat, hst] at h
      · simp only [markExit, hlat, if_neg hst, Prod.mk.injEq,
          EEOutcome.exited.injEq] at h
        obtain ⟨h1, h2⟩ := h
        subst h1
        exact ⟨rfl, rfl⟩

/-- C10 witness: the invariant holds across a concrete entry and a concrete
exit, and the inversion conjuncts apply to them. -/
theorem entry_exit_outTime_invariant_witness :
    (∀ l ∈ (markEntry 1 "Manual" 5 0 []).2, LogWF l) ∧
    (∀ l ∈ (markExit 1 "QR" 9 [sampleLogIn]).2, LogWF l) ∧
    (sampleLogIn.status = EEStatus.IN ∧ sampleLogIn.inTime = 5 ∧
      sampleLogIn.outTime = none ∧
      ([sampleLogIn] : List EntryExitLog) = [] ++ [sampleLogIn]) ∧
    (sampleLogOut.status = EEStatus.OUT ∧ sampleLogOut.outTime = some 9) :=
  ⟨(entry_exit_outTime_invariant 1 "Manual" 5 0 []).1 (by simp),
   (entry_exit_outTime_invariant 1 "QR" 9 0 [sampleLogIn]).2.1
      (by decide),
   (entry_exit_outTime_invariant 1 "Manual" 5 0 []).2.2.1 sampleLogIn
      [sampleLogIn] (by decide),
   (entry_exit_outTime_invariant 1 "QR" 9 0 [sampleLogIn]).2.2.2 sampleLogOut
      [sampleLogOut] (by decide)⟩

/-- The fee written by `markPaidFee` always carries `paidAt = now`,
whatever the receipt argument. -/
theorem markPaidFee_paidAt (fee : Fee) (receiptNumber : Option String)
    (wardenUserId now : Nat) :
    (markPaidFee fee receiptNumber wardenUserId now).paidAt = some now := by
  cases receiptNumber with
  | none => rfl
  | some r => by_cases hr : r = "" <;> simp [markPaidFee, hr]

/-- `applyFeeBodyUpdate` keeps `paidAt` set on `Paid` fees: if the source
fee satisfied `Paid → paidAt set`, so does the updated fee. -/
theorem applyFeeBodyUpdate_paidAt (fee : Fee) (amount : Option Int)
    (status : Option String) (term receiptNumber : Option String)
    (now : Nat) (h : fee.status = FeeStatus.Paid → fee.paidAt.isSome) :
    (applyFeeBodyUpdate fee amount status term receiptNumber now).status
      = FeeStatus.Paid →
    (applyFeeBodyUpdate fee amount status term receiptNumber
      now).paidAt.isSome := by
  intro hp
  cases status with
  | none =>
    cases amount <;> cases term <;> cases receiptNumber <;>
      simp_all [applyFeeBodyUpdate]
  | some s =>
    by_cases hs : s = "Paid"
    · subst hs
      cases amount <;> cases term <;> cases receiptNumber <;>
        by_cases hpn : fee.paidAt = none <;>
        simp_all [applyFeeBodyUpdate, Option.isSome_iff_ne_none]
    · cases amount <;> cases term <;> cases receiptNumber <;>
      simp_all [applyFeeBodyUpdate]

/-- A pending fee as `createFee` stores it. -/
def sampleFeePending : Fee := {
  id := 0
  studentId := 1
  amount := 500
  term := "Term1"
  status := .Pending
  receiptNumber := none
  paidAt := none
  paidBy := none
  paidByUserId := none
  createdAt := 100 }

/-- A second pending fee of the same student. -/
def sampleFeePending2 : Fee := {
  id := 1
  studentId := 1
  amount := 300
  term := "Term2"
  status := .Pending
  receiptNumber := none
  paidAt := none
  paidBy := none
  paidByUserId := none
  createdAt := 200 }

/-- `sampleFeePending` after a warden `markFeePaid` with no receipt. -/
def sampleFeePaidNoReceipt : Fee := markPaidFee sampleFeePending none 9 1000

/-- C8 counterexample: the warden override `markFeePaid`, called without a
receipt number on a concrete pending fee, succeeds and stores a fee with
`status = Paid` but `receiptNumber` unset — refuting the invariant that a
Paid fee has its receipt identifier set. -/
theorem fee_paid_receipt_counterexample :
    markFeePaid 0 none 9 1000 [sampleFeePending]
      = (.ok sampleFeePaidNoReceipt, [sampleFeePaidNoReceipt]) ∧
    sampleFeePaidNoReceipt.status = FeeStatus.Paid ∧
    sampleFeePaidNoReceipt.paidAt = some 1000 ∧
    sampleFeePaidNoReceipt.receiptNumber = none := by decide

/-- C8 (amended): Settle (`payMyFees`) preserves the full invariant that a
Paid fee has both `paidAt` and `receiptNumber` set; `markFeePaid` and
`updateFee` preserve only its `paidAt` half (each can store a Paid fee with
no receipt identifier); and `createFee` preserves neither — a fee it
creates directly in `Paid` status has neither `paidAt` nor `receiptNumber`
set. -/
theorem fee_paid_invariants :
    (∀ isParent payerUserId sid amount method transactionId now
        generatedReceipt paymentWriteFails fees payments,
      (∀ f ∈ fees, f.status = FeeStatus.Paid →
        f.paidAt.isSome ∧ f.receiptNumber.isSome) →
      ∀ f ∈ (payMyFees isParent payerUserId sid amount method transactionId
          now generatedReceipt paymentWriteFails fees payments).2.1,
        f.status = FeeStatus.Paid →
        f.paidAt.isSome ∧ f.receiptNumber.isSome) ∧
    (∀ feeId receiptNumber wardenUserId now db,
      (∀ f ∈ db, f.status = FeeStatus.Paid → f.paidAt.isSome) →
      ∀ f ∈ (markFeePaid feeId receiptNumber wardenUserId now db).2,
        f.status = FeeStatus.Paid → f.paidAt.isSome) ∧
    (∀ feeId amount status term receiptNumber now db,
      (∀ f ∈ db, f.status = FeeStatus.Paid → f.paidAt.isSome) →
      ∀ f ∈ (updateFee feeId amount status term receiptNumber now db).2,
        f.status = FeeStatus.Paid → f.paidAt.isSome) ∧
    (∀ sid studentExists amount term status newId now db r db2,
      createFee sid studentExists amount term status newId now db
        = (.ok r, db2) →
      r.paidAt = none ∧ r.receiptNumber = none) := by
  refine ⟨?_, ?_, ?_, ?_⟩
  · intro isParent pu sid amount method tid now gen pf fees payments
      hinv f hf
    by_cases h1 : amount ≤ 0
    · simp only [payMyFees, if_pos h1] at hf
      exact hinv f hf
    · by_cases h2 : pendingFeesOf fees sid = []
      · simp only [payMyFees, if_neg h1, if_pos h2] at hf
        exact hinv f hf
      · by_cases h3 : amount = ((pendingFeesOf fees sid).map Fee.amount).sum
        · rw [payMyFees_settle_eq isParent pu sid amount method tid now gen
            pf fees payments (lt_of_not_ge h1) h2 h3] at hf
          rcases List.mem_map.mp hf with ⟨x, hx, rfl⟩
          by_cases hm : x.studentId = sid ∧ x.status = FeeStatus.Pending
          · intro _
            simp [settleFee, hm]
          · simp only [settleFee, if_neg hm]
            exact hinv x hx
        · simp only [payMyFees, if_neg h1, if_neg h2, if_pos h3] at hf
          exact hinv f hf
  · intro feeId receiptNumber wu now db hinv f hf
    rcases hfe : findFee db feeId with _ | fee
    · simp only [markFeePaid, hfe] at hf
      exact hinv f hf
    · simp only [markFeePaid, hfe] at hf
      rcases hu : (updateFirst (fun g => g.id = feeId)
          (fun _ => markPaidFee fee receiptNumber wu now) db).1 with _ | w
      · rw [hu] at hf
        exact hinv f hf
      · rw [hu] at hf
        rcases updateFirst_mem hf with hmem | ⟨x, hx, rfl⟩
        · exact hinv f hmem
        · intro _
          simp [markPaidFee_paidAt]
  · intro feeId amount status term receiptNumber now db hinv f hf
    rcases hfe : findFee db feeId with _ | fee
    · simp only [updateFee, hfe] at hf
      exact hinv f hf
    · simp only [updateFee, hfe] at hf
      split at hf
      · rcases hu : (updateFirst (fun g => g.id = feeId)
            (fun _ => applyFeeBodyUpdate fee amount status term
              receiptNumber now) db).1 with _ | w
        · rw [hu] at hf
          exact hinv f hf
        · rw [hu] at hf
          rcases updateFirst_mem hf with hmem | ⟨x, hx, rfl⟩
          · exact hinv f hmem
          · have hfe' : db.find? (fun r => decide (r.id = feeId))
                = some fee := hfe
            have hfee : fee ∈ db := List.mem_of_find?_eq_some hfe'
            exact fun hp => applyFeeBodyUpdate_paidAt fee amount status term
              receiptNumber now (hinv fee hfee) hp
      · exact hinv f hf
  · intro sid studentExists amount term status newId now db r db2 h
    simp only [createFee] at h
    split at h
    · simp at h
    · split at h
      · simp at h
      · split at h
        · simp at h
        · split at h
          · simp at h
          · simp only [Prod.mk.injEq, FeeOutcome.ok.injEq] at h
            obtain ⟨h1, h2⟩ := h
            subst h1
            exact ⟨rfl, rfl⟩

/-- C8 witness (amended claim at concrete inputs): a concrete settlement,
warden mark-paid and update preserve their respective invariant halves, and
a concrete `createFee` with body status `'Paid'` stores a fee with neither
`paidAt` nor `receiptNumber`. -/
theorem fee_paid_invariants_witness :
    (∀ f ∈ (payMyFees false 2 1 500 "UPI" none 1000 "RCPT1" false
        [sampleFeePending] []).2.1,
      f.status = FeeStatus.Paid →
      f.paidAt.isSome ∧ f.receiptNumber.isSome) ∧
    (∀ f ∈ (markFeePaid 0 (some "R1") 9 1000 [sampleFeePending]).2,
      f.status = FeeStatus.Paid → f.paidAt.isSome) ∧
    (∀ f ∈ (updateFee 0 none (some "Paid") none none 1000
        [sampleFeePending]).2,
      f.status = FeeStatus.Paid → f.paidAt.isSome) ∧
    ({ id := 7, studentId := 1, amount := 200, term := "T3",
       status := FeeStatus.Paid, receiptNumber := none, paidAt := none,
       paidBy := none, paidByUserId := none,
       createdAt := 50 } : Fee).paidAt = none ∧
    ({ id := 7, studentId := 1, amount := 200, term := "T3",
       status := FeeStatus.Paid, receiptNumber := none, paidAt := none,
       paidBy := none, paidByUserId := none,
       createdAt := 50 } : Fee).receiptNumber = none :=
  ⟨fee_paid_invariants.1 false 2 1 500 "UPI" none 1000 "RCPT1" false
      [sampleFeePending] [] (by decide),
   fee_paid_invariants.2.1 0 (some "R1") 9 1000 [sampleFeePending]
      (by decide),
   fee_paid_invariants.2.2.1 0 none (some "Paid") none none 1000
      [sampleFeePending] (by decide),
   fee_paid_invariants.2.2.2 1 true 200 "T3" "Paid" 7 50 []
      { id := 7, studentId := 1, amount := 200, term := "T3",
        status := FeeStatus.Paid, receiptNumber := none, paidAt := none,
        paidBy := none, paidByUserId := none, createdAt := 50 }
      [{ id := 7, studentId := 1, amount := 200, term := "T3",
         status := FeeStatus.Paid, receiptNumber := none, paidAt := none,
         paidBy := none, paidByUserId := none, createdAt := 50 }]
      (by decide)⟩

/-- After the settlement map, every fee of the settled subject is Paid:
its pending fees were just settled and its other fees were already Paid. -/
theorem settleFee_map_paid (isParent : Bool) (pu now : Nat) (gen : String)
    (sid : Nat) (fees : List Fee) :
    ∀ f ∈ fees.map (settleFee isParent pu now gen sid),
      f.studentId = sid → f.status = FeeStatus.Paid := by
  intro f hf hsid
  rcases List.mem_map.mp hf with ⟨x, hx, rfl⟩
  by_cases hm : x.studentId = sid ∧ x.status = FeeStatus.Pending
  · simp [settleFee, hm]
  · simp only [settleFee, if_neg hm] at hsid ⊢
    cases hxs : x.status with
    | Pending => exact absurd ⟨hsid, hxs⟩ hm
    | Paid => rfl

/-- `sampleFeePending` already carrying a receipt number (assignable via
`updateFee` while the fee is still Pending). -/
def sampleFeeOldReceipt : Fee :=
  { sampleFeePending with receiptNumber := some "OLD" }

/-- C4 counterexample: Settle with `amount = 0` on a subject with no
pending fees is rejected by the positivity guard with a ValidationError —
not the claimed no-op success; and settling a concrete pair of pending fees
of which one already carries receipt `"OLD"` leaves that fee with `"OLD"`
while the other gets the generated `"NEW"` — not a single shared receipt
identifier stamped on all of them. -/
theorem settle_shared_receipt_counterexample :
    payMyFees false 2 1 0 "UPI" none 1000 "R" false [] []
      = (.validationError, [], []) ∧
    (payMyFees false 2 1 800 "UPI" none 1000 "NEW" false
        [sampleFeeOldReceipt, sampleFeePending2] []).2.1.map
          Fee.receiptNumber
      = [some "OLD", some "NEW"] := by decide

/-- C4 (amended): Settle (`payMyFees`) with amount equal to the sum of the
subject's Pending fee amounts (there being at least one) marks every
previously-Pending fee of the subject Paid and stamps on each the
existing-or-generated receipt — so all fees without a pre-existing receipt
share the one generated identifier, while a fee with a pre-existing receipt
keeps its own; for a subject with no Pending fees, Settle with any positive
amount succeeds as a no-op returning success, an empty list, and no
mutation, but an amount of 0 is rejected as a ValidationError by the
positivity check before the no-pending case is reached. -/
theorem settle_full_amount (isParent : Bool) (payerUserId sid : Nat)
    (amount : Int) (method : String) (transactionId : Option String)
    (now : Nat) (generatedReceipt : String) (paymentWriteFails : Bool)
    (fees : List Fee) (payments : List Payment) :
    (amount = 0 →
      payMyFees isParent payerUserId sid amount method transactionId now
        generatedReceipt paymentWriteFails fees payments
        = (.validationError, fees, payments)) ∧
    (0 < amount → pendingFeesOf fees sid = [] →
      payMyFees isParent payerUserId sid amount method transactionId now
        generatedReceipt paymentWriteFails fees payments
        = (.ok "No pending fees to pay" [] none, fees, payments)) ∧
    (0 < amount → pendingFeesOf fees sid ≠ [] →
      amount = ((pendingFeesOf fees sid).map Fee.amount).sum →
      (payMyFees isParent payerUserId sid amount method transactionId now
          generatedReceipt paymentWriteFails fees payments).2.1
        = fees.map (settleFee isParent payerUserId now generatedReceipt
            sid) ∧
      (∃ d, (payMyFees isParent payerUserId sid amount method transactionId
          now generatedReceipt paymentWriteFails fees payments).1
        = .ok "Payment recorded successfully" d (some generatedReceipt)) ∧
      (∀ f ∈ (payMyFees isParent payerUserId sid amount method
          transactionId now generatedReceipt paymentWriteFails fees
          payments).2.1,
        f.studentId = sid → f.status = FeeStatus.Paid) ∧
      (∀ f ∈ fees, f.studentId = sid → f.status = FeeStatus.Pending →
        settleFee isParent payerUserId now generatedReceipt sid f
          = { f with
              status := FeeStatus.Paid,
              paidAt := some now,
              receiptNumber := some (jsOrString f.receiptNumber
                generatedReceipt),
              paidBy := some (if isParent then PayerRole.parent
                else PayerRole.student),
              paidByUserId := some payerUserId })) := by
  refine ⟨?_, ?_, ?_⟩
  · intro h0
    simp only [payMyFees, if_pos h0.le]
  · intro hpos hemp
    simp only [payMyFees, if_neg (not_le.mpr hpos), if_pos hemp]
  · intro hpos hne hsum
    rw [payMyFees_settle_eq isParent payerUserId sid amount method
      transactionId now generatedReceipt paymentWriteFails fees payments
      hpos hne hsum]
    refine ⟨rfl, ⟨_, rfl⟩, ?_, ?_⟩
    · exact settleFee_map_paid isParent payerUserId now generatedReceipt
        sid fees
    · intro f hf hsid hpend
      unfold settleFee
      rw [if_pos ⟨hsid, hpend⟩]

/-- C4 witness (amended claim at concrete inputs): amount 0 is rejected; a
positive amount on no pending fees is a success no-op; settling 800 against
pending fees of 500 and 300 marks both Paid with the shared generated
receipt. -/
theorem settle_full_amount_witness :
    payMyFees false 2 1 0 "UPI" none 1000 "G" false [sampleFeePending] []
      = (.validationError, [sampleFeePending], []) ∧
    payMyFees false 2 1 5 "UPI" none 1000 "G" false [] []
      = (.ok "No pending fees to pay" [] none, [], []) ∧
    ((payMyFees false 2 1 800 "UPI" none 1000 "G" false
        [sampleFeePending, sampleFeePending2] []).2.1
      = [sampleFeePending, sampleFeePending2].map
          (settleFee false 2 1000 "G" 1) ∧
     (∃ d, (payMyFees false 2 1 800 "UPI" none 1000 "G" false
        [sampleFeePending, sampleFeePending2] []).1
        = .ok "Payment recorded successfully" d (some "G")) ∧
     (∀ f ∈ (payMyFees false 2 1 800 "UPI" none 1000 "G" false
        [sampleFeePending, sampleFeePending2] []).2.1,
        f.studentId = 1 → f.status = FeeStatus.Paid) ∧
     (∀ f ∈ [sampleFeePending, sampleFeePending2], f.studentId = 1 →
        f.status = FeeStatus.Pending →
        settleFee false 2 1000 "G" 1 f
          = { f with
              status := FeeStatus.Paid,
              paidAt := some 1000,
              receiptNumber := some (jsOrString f.receiptNumber "G"),
              paidBy := some (if false then PayerRole.parent
                else PayerRole.student),
              paidByUserId := some 2 })) :=
  ⟨(settle_full_amount false 2 1 0 "UPI" none 1000 "G" false
      [sampleFeePending] []).1 rfl,
   (settle_full_amount false 2 1 5 "UPI" none 1000 "G" false [] []).2.1
      (by decide) (by decide),
   (settle_full_amount false 2 1 800 "UPI" none 1000 "G" false
      [sampleFeePending, sampleFeePending2] []).2.2 (by decide) (by decide)
      (by decide)⟩

/-- C5 counterexample: for a subject with no Pending fees, the positive
amount 5 differs from the Pending sum (0), yet Settle succeeds with the
no-op response instead of failing with AmountMismatch — refuting the claim
as universally stated over all subjects. -/
theorem settle_mismatch_counterexample :
    payMyFees false 2 1 5 "UPI" none 0 "R" false [] []
      = (.ok "No pending fees to pay" [] none, [], []) ∧
    (5 : Int) ≠ ((pendingFeesOf ([] : List Fee) 1).map Fee.amount).sum ∧
    (payMyFees false 2 1 5 "UPI" none 0 "R" false [] []).1
      ≠ PayOutcome.amountMismatch := by decide

/-- C5 (amended): for every subject with at least one Pending fee and every
positive amount X different from the sum of the subject's Pending fee
amounts, Settle fails with AmountMismatch and leaves every fee (and the
payment ledger) unchanged; for a subject with no Pending fees, any positive
amount instead returns the no-op success, the amount check never being
reached. -/
theorem settle_amount_mismatch (isParent : Bool) (payerUserId sid : Nat)
    (amount : Int) (method : String) (transactionId : Option String)
    (now : Nat) (generatedReceipt : String) (paymentWriteFails : Bool)
    (fees : List Fee) (payments : List Payment) :
    (pendingFeesOf fees sid ≠ [] → 0 < amount →
      amount ≠ ((pendingFeesOf fees sid).map Fee.amount).sum →
      payMyFees isParent payerUserId sid amount method transactionId now
        generatedReceipt paymentWriteFails fees payments
        = (.amountMismatch, fees, payments)) ∧
    (pendingFeesOf fees sid = [] → 0 < amount →
      payMyFees isParent payerUserId sid amount method transactionId now
        generatedReceipt paymentWriteFails fees payments
        = (.ok "No pending fees to pay" [] none, fees, payments)) := by
  constructor
  · intro hne hpos hmis
    simp only [payMyFees, if_neg (not_le.mpr hpos), if_neg hne,
      if_pos hmis]
  · intro hemp hpos
    simp only [payMyFees, if_neg (not_le.mpr hpos), if_pos hemp]

/-- C5 witness (amended claim at concrete inputs): paying 9999 against a
single pending fee of 500 is an AmountMismatch leaving the store unchanged;
paying 5 with no pending fees is the no-op success. -/
theorem settle_amount_mismatch_witness :
    payMyFees false 2 1 9999 "UPI" none 1000 "G" false [sampleFeePending] []
      = (.amountMismatch, [sampleFeePending], []) ∧
    payMyFees false 2 1 5 "UPI" none 1000 "G" false [] []
      = (.ok "No pending fees to pay" [] none, [], []) :=
  ⟨(settle_amount_mismatch false 2 1 9999 "UPI" none 1000 "G" false
      [sampleFeePending] []).1 (by decide) (by decide) (by decide),
   (settle_amount_mismatch false 2 1 5 "UPI" none 1000 "G" false [] []).2
      (by decide) (by decide)⟩

/-- C6: when the Payment-record write in Settle fails after the fees have
been marked Paid (the `Payment.create` throw caught by the handler's inner
try/catch, which only logs), the fee updates are not rolled back — the
subject's fees are still saved as Paid with the settlement stamps — the
payment ledger is left unchanged, and Settle still returns the success
response with the generated receipt rather than escalating the secondary
failure. -/
theorem settle_payment_write_failure (isParent : Bool)
    (payerUserId sid : Nat) (amount : Int) (method : String)
    (transactionId : Option String) (now : Nat) (generatedReceipt : String)
    (fees : List Fee) (payments : List Payment)
    (hne : pendingFeesOf fees sid ≠ []) (hpos : 0 < amount)
    (hsum : amount = ((pendingFeesOf fees sid).map Fee.amount).sum) :
    (payMyFees isParent payerUserId sid amount method transactionId now
      generatedReceipt true fees payments).2.2 = payments ∧
    (payMyFees isParent payerUserId sid amount method transactionId now
      generatedReceipt true fees payments).2.1
      = fees.map (settleFee isParent payerUserId now generatedReceipt
          sid) ∧
    (∀ f ∈ (payMyFees isParent payerUserId sid amount method transactionId
        now generatedReceipt true fees payments).2.1,
      f.studentId = sid → f.status = FeeStatus.Paid) ∧
    (∃ d, (payMyFees isParent payerUserId sid amount method transactionId
        now generatedReceipt true fees payments).1
      = .ok "Payment recorded successfully" d (some generatedReceipt)) := by
  rw [payMyFees_settle_eq isParent payerUserId sid amount method
    transactionId now generatedReceipt true fees payments hpos hne hsum]
  exact ⟨rfl, rfl,
    settleFee_map_paid isParent payerUserId now generatedReceipt sid fees,
    ⟨_, rfl⟩⟩

/-- C6 witness: a concrete settlement of 800 with the Payment write failing
still marks both fees Paid, leaves the (empty) ledger unchanged, and
returns success. -/
theorem settle_payment_write_failure_witness :
    (payMyFees false 2 1 800 "UPI" none 1000 "G" true
      [sampleFeePending, sampleFeePending2] []).2.2 = [] ∧
    (payMyFees false 2 1 800 "UPI" none 1000 "G" true
      [sampleFeePending, sampleFeePending2] []).2.1
      = [sampleFeePending, sampleFeePending2].map
          (settleFee false 2 1000 "G" 1) ∧
    (∀ f ∈ (payMyFees false 2 1 800 "UPI" none 1000 "G" true
        [sampleFeePending, sampleFeePending2] []).2.1,
      f.studentId = 1 → f.status = FeeStatus.Paid) ∧
    (∃ d, (payMyFees false 2 1 800 "UPI" none 1000 "G" true
        [sampleFeePending, sampleFeePending2] []).1
      = .ok "Payment recorded successfully" d (some "G")) :=
  settle_payment_write_failure false 2 1 800 "UPI" none 1000 "G"
    [sampleFeePending, sampleFeePending2] [] (by decide) (by decide)
    (by decide)

end Hostel
